import Mathlib

/-!
Shallow embedding of the findr filter-and-match engine.

Sources embedded:
- src/src/filter/size.rs (SizeFilter)
- src/src/filter/octal.rs (OctalFilter)
- src/src/filter/owner.rs (OwnerFilter)
- src/src/filter/duration.rs (DurationFilter)
- src/src/filter/type_filter.rs (TypeFilter)
- src/src/entry.rs (Entry trait)
- src/src/lib.rs (Command::run and its stage functions)
- src/src/main.rs (exit-status mapping)

Conventions: Rust u32/u64/usize become Nat (all quantities involved are
non-negative and no wrapping arithmetic occurs in the embedded code);
Rust Result becomes Except; a Rust panic (Duration subtraction underflow)
is a distinguished result constructor; the system clock is an input
(`Option Nat`, none = SystemTime::duration_since failed), measured in
nanoseconds to keep the sub-second precision of std::time::Duration;
the directory walker and the process signal flag are inputs to the run
function, each traversal item paired with the flag value observed when
that item is pulled.
-/

namespace Findr

/-- File type tag of a directory entry, as exposed by std::fs::FileType
(is_dir / is_file / is_symlink / is_fifo / is_socket). -/
inductive FileType where
  | dir
  | file
  | symlink
  | fifo
  | socket
  | other
deriving DecidableEq, Repr

/-- Embedding of the Entry trait (src/src/entry.rs): path is always
available, every metadata accessor is independently fallible, file_type
is an infallible value, and `executable` is the result of the
is_executable probe on the entry path used by TypeFilter::Executable. -/
structure Entry where
  path : String
  uid : Except String Nat
  gid : Except String Nat
  atime : Except String Nat
  ctime : Except String Nat
  created_time : Except String Nat
  mtime : Except String Nat
  mode : Except String Nat
  size : Except String Nat
  ftype : FileType
  executable : Bool

/-- SizeFilter (src/src/filter/size.rs). -/
inductive SizeFilter where
  | Less (u : Nat)
  | Greater (u : Nat)
  | Equal (u : Nat)
deriving DecidableEq, Repr

/-- SizeFilter::matches. -/
def SizeFilter.matches : SizeFilter → Nat → Bool
  | .Equal u, size => size == u
  | .Less u, size => decide (size < u)
  | .Greater u, size => decide (size > u)

/-- OctalFilter (src/src/filter/octal.rs). -/
inductive OctalFilter where
  | Contains (m : Nat)
  | Equal (m : Nat)
  | NotContains (m : Nat)
deriving DecidableEq, Repr

/-- OctalFilter::matches: Equal masks the mode to the low 9 bits before
comparing; Contains and NotContains test `o &&& m` against the filter
mask directly, with no 0o777 masking. -/
def OctalFilter.matches : OctalFilter → Nat → Bool
  | .Contains m, o => m == (o &&& m)
  | .Equal m, o => m == (o &&& 0o777)
  | .NotContains m, o => 0 == (o &&& m)

/-- OwnerFilter (src/src/filter/owner.rs), holding resolved uid/gid. -/
inductive OwnerFilter where
  | User (u : Nat)
  | Group (g : Nat)
  | UserGroup (u : Nat) (g : Nat)
deriving DecidableEq, Repr

/-- OwnerFilter::matches. -/
def OwnerFilter.matches : OwnerFilter → Nat → Nat → Bool
  | .User u, uid, _ => u == uid
  | .Group g, _, gid => g == gid
  | .UserGroup u g, uid, gid => u == uid && g == gid

/-- TypeFilter (src/src/filter/type_filter.rs). -/
inductive TypeFilter where
  | Dir
  | Executable
  | File
  | Pipe
  | Socket
  | SymLink
deriving DecidableEq, Repr

/-- TypeFilter::matches: Dir/File/Pipe/Socket/SymLink compare the cached
file-type tag; Executable probes execute permission on the path (the
entry carries that probe result). -/
def TypeFilter.matches (f : TypeFilter) (ent : Entry) : Bool :=
  match f with
  | .Dir => ent.ftype == .dir
  | .Executable => ent.executable
  | .File => ent.ftype == .file
  | .Pipe => ent.ftype == .fifo
  | .Socket => ent.ftype == .socket
  | .SymLink => ent.ftype == .symlink

/-- Durations are measured in nanoseconds (std::time::Duration precision). -/
def nanosPerSec : Nat := 1000000000

/-- Duration::from_secs. -/
def Duration.fromSecs (s : Nat) : Nat := s * nanosPerSec

/-- DurationFilter (src/src/filter/duration.rs); the stored payload is a
std::time::Duration, here in nanoseconds. -/
inductive DurationFilter where
  | Less (d : Nat)
  | Greater (d : Nat)
deriving DecidableEq, Repr

/-- Outcome of DurationFilter::matches: a returned Ok(bool), a returned
error (SystemTime::duration_since failed, i.e. the clock reads before
the epoch), or a Rust panic raised by `now - duration` when the stored
duration exceeds the time since the epoch (std Duration subtraction
panics on overflow instead of returning an error). -/
inductive DMatch where
  | ok (b : Bool)
  | clockErr
  | panicked
deriving DecidableEq, Repr

/-- DurationFilter::matches: `now` is the clock reading in nanoseconds
(none when duration_since errors), `instant` the stored timestamp in
whole seconds (converted with Duration::from_secs as in the source). -/
def DurationFilter.matches (f : DurationFilter) (clock : Option Nat) (instant : Nat) : DMatch :=
  match clock with
  | none => .clockErr
  | some now =>
    match f with
    | .Less d => if now < d then .panicked else .ok (decide (now - d < Duration.fromSecs instant))
    | .Greater d => if now < d then .panicked else .ok (decide (now - d > Duration.fromSecs instant))

/-- True when the outcome is a returned error. -/
def DMatch.isErr : DMatch → Bool
  | .clockErr => true
  | _ => false

/-- True when the outcome is a returned Ok(bool). -/
def DMatch.isOk : DMatch → Bool
  | .ok _ => true
  | _ => false

/-- The configured predicate set (src/src/options.rs), as consumed by
Command::run. The regex pattern is embedded as an abstract predicate on
the path string; traversal roots and depth bounds configure the external
walker and are not part of the stage functions. -/
structure Options where
  pattern : Option (String → Bool)
  owner : Option OwnerFilter
  mode : Option OctalFilter
  type_filters : List TypeFilter
  size_filters : List SizeFilter
  atime_filters : List DurationFilter
  ctime_filters : List DurationFilter
  creation_time_filters : List DurationFilter
  mtime_filters : List DurationFilter
  show_errors : Bool

/-- Result of one pipeline stage on one entry: Ok(bool), a recoverable
per-entry error carrying its message, or a Rust panic. -/
inductive SResult where
  | ok (b : Bool)
  | err (msg : String)
  | panicked
deriving DecidableEq, Repr

namespace Command

/-- Command::matches_pattern: absent pattern passes everything;
never fails. -/
def matches_pattern (opts : Options) (ent : Entry) : SResult :=
  match opts.pattern with
  | none => .ok true
  | some p => .ok (p ent.path)

/-- Command::matches_owner: absent filter passes everything; uid is
fetched before gid and either fetch failure is a per-entry error. -/
def matches_owner (opts : Options) (ent : Entry) : SResult :=
  match opts.owner with
  | none => .ok true
  | some f =>
    match ent.uid with
    | .error m => .err m
    | .ok uid =>
      match ent.gid with
      | .error m => .err m
      | .ok gid => .ok (f.matches uid gid)

/-- Command::matches_mode: absent filter passes everything. -/
def matches_mode (opts : Options) (ent : Entry) : SResult :=
  match opts.mode with
  | none => .ok true
  | some f =>
    match ent.mode with
    | .error m => .err m
    | .ok o => .ok (f.matches o)

/-- Command::matches_type_filters: empty list passes everything,
otherwise any-of (OR); never fails. -/
def matches_type_filters (opts : Options) (ent : Entry) : SResult :=
  .ok (opts.type_filters.isEmpty || opts.type_filters.any (fun t => t.matches ent))

/-- Command::matches_size_filters: empty list passes everything without
touching the entry size; otherwise the size is fetched once and the
filters are folded with `f.matches(size) && acc`. -/
def matches_size_filters (opts : Options) (ent : Entry) : SResult :=
  if opts.size_filters.isEmpty then .ok true
  else
    match ent.size with
    | .error m => .err m
    | .ok size => .ok (opts.size_filters.foldl (fun acc f => f.matches size && acc) true)

/-- The try_fold of the four timestamp stages: folds
`t.matches(time).map(fun b => b && acc)`, stopping at the first
returned error (or panic). -/
def tryFoldDuration (clock : Option Nat) (t : Nat) (acc : Bool) :
    List DurationFilter → SResult
  | [] => .ok acc
  | f :: fs =>
    match f.matches clock t with
    | .ok b => tryFoldDuration clock t (b && acc) fs
    | .clockErr => .err "second time provided was later than self"
    | .panicked => .panicked

/-- Command::matches_atime_filters: empty list passes everything without
touching the entry atime; otherwise atime is fetched once and the
filters try_folded. -/
def matches_atime_filters (opts : Options) (clock : Option Nat) (ent : Entry) : SResult :=
  if opts.atime_filters.isEmpty then .ok true
  else
    match ent.atime with
    | .error m => .err m
    | .ok t => tryFoldDuration clock t true opts.atime_filters

/-- Command::matches_ctime_filters. -/
def matches_ctime_filters (opts : Options) (clock : Option Nat) (ent : Entry) : SResult :=
  if opts.ctime_filters.isEmpty then .ok true
  else
    match ent.ctime with
    | .error m => .err m
    | .ok t => tryFoldDuration clock t true opts.ctime_filters

/-- Command::matches_creation_time_filters. -/
def matches_creation_time_filters (opts : Options) (clock : Option Nat) (ent : Entry) : SResult :=
  if opts.creation_time_filters.isEmpty then .ok true
  else
    match ent.created_time with
    | .error m => .err m
    | .ok t => tryFoldDuration clock t true opts.creation_time_filters

/-- Command::matches_mtime_filters. -/
def matches_mtime_filters (opts : Options) (clock : Option Nat) (ent : Entry) : SResult :=
  if opts.mtime_filters.isEmpty then .ok true
  else
    match ent.mtime with
    | .error m => .err m
    | .ok t => tryFoldDuration clock t true opts.mtime_filters

end Command

/-- Fate of one successfully-produced entry after the chain of
filter_map stages in Command::run: printed, silently dropped by a
non-matching stage, carried forward as a recoverable per-entry error,
or aborted by a panic inside a stage. -/
inductive EntOut where
  | keep
  | drop
  | errLine (msg : String)
  | panicked
deriving DecidableEq, Repr

/-- filter_bool_result (src/src/lib.rs) lifted to stage chaining:
Ok(true) lets the entry continue to the rest of the pipeline, Ok(false)
drops it, an error replaces it in the stream, a panic aborts. -/
def stageThen (r : SResult) (next : EntOut) : EntOut :=
  match r with
  | .ok true => next
  | .ok false => .drop
  | .err m => .errLine m
  | .panicked => .panicked

/-- The nine filter_map stages of Command::run applied to one entry, in
the source order: pattern, owner, mode, type, size, atime, ctime,
creation-time, mtime. -/
def processEntry (opts : Options) (clock : Option Nat) (ent : Entry) : EntOut :=
  stageThen (Command.matches_pattern opts ent)
    (stageThen (Command.matches_owner opts ent)
      (stageThen (Command.matches_mode opts ent)
        (stageThen (Command.matches_type_filters opts ent)
          (stageThen (Command.matches_size_filters opts ent)
            (stageThen (Command.matches_atime_filters opts clock ent)
              (stageThen (Command.matches_ctime_filters opts clock ent)
                (stageThen (Command.matches_creation_time_filters opts clock ent)
                  (stageThen (Command.matches_mtime_filters opts clock ent)
                    .keep))))))))

/-- Command::print_error: one line on the diagnostic stream, prefixed by
the crate name, gated by the show-errors switch. -/
def Command.print_error (opts : Options) (msg : String) : List String :=
  if opts.show_errors then ["findr: " ++ msg] else []

/-- Observable outcome of Command::run together with the lines written:
`printed` on the primary output stream (one matching path per line),
`errLines` on the diagnostic stream; `terminated` is the fatal
Error::Terminated(u) propagated to the caller, `panicked` a Rust panic
inside a duration stage. -/
inductive RunResult where
  | completed (printed : List String) (errLines : List String)
  | terminated (printed : List String) (errLines : List String) (u : Nat)
  | panicked (printed : List String) (errLines : List String)
deriving DecidableEq, Repr

/-- Prepend one printed path to a run outcome. -/
def RunResult.addOut (p : String) : RunResult → RunResult
  | .completed ps es => .completed (p :: ps) es
  | .terminated ps es u => .terminated (p :: ps) es u
  | .panicked ps es => .panicked (p :: ps) es

/-- Prepend diagnostic lines to a run outcome. -/
def RunResult.addErr (ls : List String) : RunResult → RunResult
  | .completed ps es => .completed ps (ls ++ es)
  | .terminated ps es u => .terminated ps (ls ++ es) u
  | .panicked ps es => .panicked ps (ls ++ es)

/-- Command::run over the lazy traversal stream. Each traversal item
(Ok entry or walker error) is paired with the value the shared signal
flag held when that item was pulled. A nonzero flag converts the item
into Error::Terminated(u), which try_for_each re-raises, aborting the
run before any later item is pulled; a walker error or per-entry stage
error goes through print_error and processing continues. -/
def Command.run (opts : Options) (clock : Option Nat) :
    List (Nat × Except String Entry) → RunResult
  | [] => .completed [] []
  | (u, item) :: rest =>
    if u = 0 then
      match item with
      | .error m => RunResult.addErr (Command.print_error opts m) (Command.run opts clock rest)
      | .ok ent =>
        match processEntry opts clock ent with
        | .keep => RunResult.addOut ent.path (Command.run opts clock rest)
        | .drop => Command.run opts clock rest
        | .errLine m => RunResult.addErr (Command.print_error opts m) (Command.run opts clock rest)
        | .panicked => .panicked [] []
    else .terminated [] [] u

/-- Exit-status mapping in main (src/src/main.rs): Ok run exits 0,
Error::Terminated(u) exits u + 128 (SIG_EXIT_MARKER); a panic never
reaches the exit-code mapping. -/
def mainExitCode : RunResult → Option Nat
  | .completed _ _ => some 0
  | .terminated _ _ u => some (u + 128)
  | .panicked _ _ => none

/-! Parsing. Rust &str tokens are embedded as `List Char`. -/

/-- Numeric value of a list of decimal digit characters. -/
def digitsToNat (ds : List Char) : Nat :=
  ds.foldl (fun acc c => acc * 10 + (c.toNat - 48)) 0

/-- Rust u32::from_str: an optional leading plus sign, then one or more
decimal digits, value below 2^32. -/
def parseU32 (s : List Char) : Option Nat :=
  let ds := match s with
    | '+' :: rest => rest
    | _ => s
  if !ds.isEmpty && ds.all Char.isDigit then
    let v := digitsToNat ds
    if v < 2 ^ 32 then some v else none
  else none

/-- Rust str::split_once: split at the first occurrence of the
separator, returning the pieces before and after it; none when the
separator does not occur. -/
def splitOnce (c : Char) : List Char → Option (List Char × List Char)
  | [] => none
  | x :: xs =>
    if x = c then some ([], xs)
    else (splitOnce c xs).map (fun p => (x :: p.1, p.2))

/-- The system user/group database consulted by the users crate: each
lookup returns the uid (resp. gid) of the found record, or none when the
lookup returns nothing. -/
structure UserDb where
  userByUid : Nat → Option Nat
  userByName : List Char → Option Nat
  groupByGid : Nat → Option Nat
  groupByName : List Char → Option Nat

/-- Owner-parse failure (the anyhow messages
invalid user / invalid group of src/src/filter/owner.rs). -/
inductive OwnerErr where
  | invalidUser (s : List Char)
  | invalidGroup (s : List Char)
deriving DecidableEq, Repr

/-- parse_user (src/src/filter/owner.rs): a token that parses as u32 is
looked up as a uid, otherwise by name; a failed lookup is the
invalid-user error. -/
def parse_user (db : UserDb) (s : List Char) : Except OwnerErr Nat :=
  match (match parseU32 s with
         | some uid => db.userByUid uid
         | none => db.userByName s) with
  | some u => .ok u
  | none => .error (.invalidUser s)

/-- parse_group (src/src/filter/owner.rs). -/
def parse_group (db : UserDb) (s : List Char) : Except OwnerErr Nat :=
  match (match parseU32 s with
         | some gid => db.groupByGid gid
         | none => db.groupByName s) with
  | some g => .ok g
  | none => .error (.invalidGroup s)

/-- OwnerFilter::from_str: split on the first colon; trailing-empty
group means User, leading-empty user means Group, both pieces non-empty
means UserGroup, no colon means User. The match arms keep the source
order, so the token of a single colon hits the User arm. -/
def OwnerFilter.from_str (db : UserDb) (s : List Char) : Except OwnerErr OwnerFilter :=
  match splitOnce ':' s with
  | some (user, []) => (parse_user db user).map .User
  | some ([], group) => (parse_group db group).map .Group
  | some (user, group) => do
    let u ← parse_user db user
    let g ← parse_group db group
    .ok (.UserGroup u g)
  | none => (parse_user db s).map .User

/-- Modelled from the spec: the unit table of the external human-size
parser (parse_size crate), which is not part of this repository —
decimal unit suffixes are base-1000, binary (iB) suffixes base-1024,
and an unrecognized suffix is a parse error. -/
def unitFactor : List Char → Option Nat
  | [] => some 1
  | ['B'] => some 1
  | ['K'] => some 1000
  | ['K', 'B'] => some 1000
  | ['K', 'i', 'B'] => some 1024
  | ['M'] => some 1000000
  | ['M', 'B'] => some 1000000
  | ['M', 'i', 'B'] => some 1048576
  | ['G'] => some 1000000000
  | ['G', 'B'] => some 1000000000
  | ['G', 'i', 'B'] => some 1073741824
  | ['T'] => some 1000000000000
  | ['T', 'B'] => some 1000000000000
  | ['T', 'i', 'B'] => some 1099511627776
  | _ => none

/-- Modelled from the spec: the external human-size parser (parse_size
crate, not part of this repository) on the integer grammar the spec
describes — an integer with an optional unit suffix, failing on an
invalid number or unit, with a u64 result. -/
def parse_size (s : List Char) : Except String Nat :=
  let ds := s.takeWhile Char.isDigit
  let unit := s.dropWhile Char.isDigit
  if ds.isEmpty then .error "invalid digit found in string"
  else
    match unitFactor unit with
    | none => .error "invalid unit"
    | some k =>
      let v := digitsToNat ds * k
      if v < 2 ^ 64 then .ok v else .error "number too large"

/-- SizeFilter::from_str: a leading minus is Less, a leading plus is
Greater, otherwise Equal, the remainder going through parse_size. -/
def SizeFilter.from_str (s : List Char) : Except String SizeFilter :=
  match s with
  | '-' :: rest => (parse_size rest).map .Less
  | '+' :: rest => (parse_size rest).map .Greater
  | _ => (parse_size s).map .Equal

/-- Modelled from the spec: the external human-readable duration parser
(humantime crate, not part of this repository) on the grammar the spec
gives by example (1d, 3h) — an integer with a required time unit,
failing on anything else; result in nanoseconds. -/
def durationUnitNanos : List Char → Option Nat
  | ['s'] => some nanosPerSec
  | ['s', 'e', 'c'] => some nanosPerSec
  | ['m'] => some (60 * nanosPerSec)
  | ['m', 'i', 'n'] => some (60 * nanosPerSec)
  | ['h'] => some (3600 * nanosPerSec)
  | ['d'] => some (86400 * nanosPerSec)
  | ['w'] => some (604800 * nanosPerSec)
  | _ => none

/-- Modelled from the spec: parse of one humantime duration token. -/
def parseHumanDuration (s : List Char) : Except String Nat :=
  let ds := s.takeWhile Char.isDigit
  let unit := s.dropWhile Char.isDigit
  if ds.isEmpty then .error "expected a number"
  else
    match durationUnitNanos unit with
    | none => .error "unknown time unit"
    | some k => .ok (digitsToNat ds * k)

/-- DurationFilter::from_str: a leading minus is Less, a leading plus is
Greater, and a bare value (no sign) is Greater. -/
def DurationFilter.from_str (s : List Char) : Except String DurationFilter :=
  match s with
  | '-' :: rest => (parseHumanDuration rest).map .Less
  | '+' :: rest => (parseHumanDuration rest).map .Greater
  | _ => (parseHumanDuration s).map .Greater

/-- The Boolean value a duration filter contributes to the try_fold when
its matches call returns Ok. -/
def durBool (clock : Option Nat) (t : Nat) (f : DurationFilter) : Bool :=
  match f.matches clock t with
  | .ok b => b
  | _ => false

/-- The stored duration of a filter, in nanoseconds. -/
def DurationFilter.dur : DurationFilter → Nat
  | .Less d => d
  | .Greater d => d

/-- A sample entry with every metadata fetch succeeding. -/
def sampleEntry (p : String) (ft : FileType) : Entry :=
  { path := p, uid := .ok 0, gid := .ok 0, atime := .ok 0, ctime := .ok 0,
    created_time := .ok 0, mtime := .ok 0, mode := .ok 420, size := .ok 0,
    ftype := ft, executable := false }

/-- A sample entry whose every metadata fetch fails. -/
def brokenEntry : Entry :=
  { path := "./broken", uid := .error "io", gid := .error "io", atime := .error "io",
    ctime := .error "io", created_time := .error "io", mtime := .error "io",
    mode := .error "io", size := .error "io", ftype := .file, executable := false }

/-- An Options value with nothing configured. -/
def emptyOptions : Options :=
  { pattern := none, owner := none, mode := none, type_filters := [],
    size_filters := [], atime_filters := [], ctime_filters := [],
    creation_time_filters := [], mtime_filters := [], show_errors := false }

/-! Helper lemmas. -/

theorem foldl_and_eq_all {α : Type} (m : α → Bool) (fs : List α) (b : Bool) :
    fs.foldl (fun acc f => m f && acc) b = (b && fs.all m) := by
  induction fs generalizing b with
  | nil => simp
  | cons f fs ih =>
    simp only [List.foldl_cons, List.all_cons, ih]
    cases b <;> cases m f <;> simp

theorem durBool_eq_true_iff {clock : Option Nat} {t : Nat} {f : DurationFilter}
    (h : (f.matches clock t).isOk = true) :
    durBool clock t f = true ↔ f.matches clock t = .ok true := by
  cases hm : f.matches clock t with
  | ok b => simp [durBool, hm]
  | clockErr => simp [hm, DMatch.isOk] at h
  | panicked => simp [hm, DMatch.isOk] at h

theorem tryFoldDuration_all_ok (clock : Option Nat) (t : Nat) (fs : List DurationFilter)
    (acc : Bool) (h : ∀ f ∈ fs, (f.matches clock t).isOk = true) :
    Command.tryFoldDuration clock t acc fs = .ok (acc && fs.all (durBool clock t)) := by
  induction fs generalizing acc with
  | nil => simp [Command.tryFoldDuration]
  | cons f fs ih =>
    have hf : (f.matches clock t).isOk = true := h f (List.mem_cons_self f fs)
    cases hm : f.matches clock t with
    | ok b =>
      have hrest : ∀ g ∈ fs, (g.matches clock t).isOk = true :=
        fun g hg => h g (List.mem_cons_of_mem f hg)
      simp only [Command.tryFoldDuration, hm, ih (b && acc) hrest]
      have hb : durBool clock t f = b := by simp [durBool, hm]
      rw [List.all_cons, hb]
      cases acc <;> cases b <;> simp
    | clockErr => rw [hm] at hf; simp [DMatch.isOk] at hf
    | panicked => rw [hm] at hf; simp [DMatch.isOk] at hf

theorem tryFoldDuration_iff (clock : Option Nat) (t : Nat) (fs : List DurationFilter)
    (h : ∀ f ∈ fs, (f.matches clock t).isOk = true) :
    Command.tryFoldDuration clock t true fs = .ok true ↔
      ∀ f ∈ fs, f.matches clock t = .ok true := by
  rw [tryFoldDuration_all_ok clock t fs true h, Bool.true_and]
  constructor
  · intro hall f hf
    have : fs.all (durBool clock t) = true := by
      simpa using hall
    exact (durBool_eq_true_iff (h f hf)).mp (List.all_eq_true.mp this f hf)
  · intro hall
    have : fs.all (durBool clock t) = true :=
      List.all_eq_true.mpr fun f hf => (durBool_eq_true_iff (h f hf)).mpr (hall f hf)
    simp [this]

/-- A sample entry with a given size. -/
def sizedEntry (n : Nat) : Entry :=
  { sampleEntry "./s" .file with size := .ok n }

/-- A sample entry with all four timestamps equal to t. -/
def timedEntry (t : Nat) : Entry :=
  { sampleEntry "./t" .file with
    atime := .ok t, ctime := .ok t, created_time := .ok t, mtime := .ok t }

/-- Options configuring only the two size filters of the spec example. -/
def optsSize : Options :=
  { emptyOptions with size_filters := [.Greater 0, .Less 100] }

/-- Options configuring one one-day Greater filter for each timestamp kind. -/
def optsTimes : Options :=
  { emptyOptions with
    atime_filters := [.Greater (Duration.fromSecs 86400)],
    ctime_filters := [.Greater (Duration.fromSecs 86400)],
    creation_time_filters := [.Greater (Duration.fromSecs 86400)],
    mtime_filters := [.Greater (Duration.fromSecs 86400)] }

/-- Options configuring the File-or-SymLink type filters of the spec
example. -/
def optsTypesFL : Options :=
  { emptyOptions with type_filters := [.File, .SymLink] }

/-- A concrete clock reading, 200000 seconds after the epoch. -/
def clock0 : Option Nat := some (Duration.fromSecs 200000)

theorem isEmpty_false_of_ne_nil {α : Type} {l : List α} (h : l ≠ []) :
    l.isEmpty = false := by
  cases l with
  | nil => exact absurd rfl h
  | cons x xs => rfl

/-! Claims. -/

/-- Claim C5: for every mode word m, OctalFilter::Equal(mask) matches m
iff mask equals the low nine bits of m; Contains(mask) matches m iff
mask equals m AND mask; NotContains(mask) matches m iff m AND mask is
zero, with no 0o777 masking for Contains/NotContains. In particular
Equal(0o600) matches modes 0o600 and 0o66600 and rejects 0o700. -/
theorem C5_octal_filter_semantics :
    (∀ m mask : Nat,
      ((OctalFilter.Equal mask).matches m = true ↔ mask = m &&& 0o777) ∧
      ((OctalFilter.Contains mask).matches m = true ↔ mask = m &&& mask) ∧
      ((OctalFilter.NotContains mask).matches m = true ↔ 0 = m &&& mask)) ∧
    (OctalFilter.Equal 0o600).matches 0o600 = true ∧
    (OctalFilter.Equal 0o600).matches 0o66600 = true ∧
    (OctalFilter.Equal 0o600).matches 0o700 = false := by
  refine ⟨fun m mask => ⟨?_, ?_, ?_⟩, by decide, by decide, by decide⟩ <;>
    simp [OctalFilter.matches]

/-- Claim C2: the type stage passes every entry when the type-filter
list is empty, and otherwise passes an entry iff at least one listed
filter matches it (OR semantics); the list [File, SymLink] matches a
regular file and a symlink and rejects a directory. -/
theorem C2_type_filters_or :
    (∀ opts ent, opts.type_filters = [] →
      Command.matches_type_filters opts ent = .ok true) ∧
    (∀ opts ent, opts.type_filters ≠ [] →
      (Command.matches_type_filters opts ent = .ok true ↔
        ∃ f ∈ opts.type_filters, f.matches ent = true)) ∧
    (∀ opts, opts.type_filters = [TypeFilter.File, TypeFilter.SymLink] →
      Command.matches_type_filters opts (sampleEntry "./f" .file) = .ok true ∧
      Command.matches_type_filters opts (sampleEntry "./l" .symlink) = .ok true ∧
      Command.matches_type_filters opts (sampleEntry "./d" .dir) = .ok false) := by
  refine ⟨?_, ?_, ?_⟩
  · intro opts ent h
    simp [Command.matches_type_filters, h]
  · intro opts ent h
    obtain ⟨x, xs, hx⟩ := List.exists_cons_of_ne_nil h
    simp [Command.matches_type_filters, hx, List.any_eq_true]
  · intro opts h
    refine ⟨?_, ?_, ?_⟩ <;>
      simp [Command.matches_type_filters, h, TypeFilter.matches, sampleEntry]

/-- Witness for C2 at concrete inputs. -/
theorem C2_type_filters_or_witness :
    Command.matches_type_filters emptyOptions (sampleEntry "./x" .file) = .ok true ∧
    Command.matches_type_filters optsTypesFL (sampleEntry "./f" .file) = .ok true ∧
    Command.matches_type_filters optsTypesFL (sampleEntry "./l" .symlink) = .ok true ∧
    Command.matches_type_filters optsTypesFL (sampleEntry "./d" .dir) = .ok false :=
  ⟨C2_type_filters_or.1 emptyOptions (sampleEntry "./x" .file) rfl,
   (C2_type_filters_or.2.1 optsTypesFL (sampleEntry "./f" .file) (by decide)).mpr (by decide),
   (C2_type_filters_or.2.2 optsTypesFL rfl).2.1,
   (C2_type_filters_or.2.2 optsTypesFL rfl).2.2⟩

/-- Claim C1: for every entry, the size stage and the four timestamp
stages pass the entry iff every configured filter of that kind matches
it (AND semantics), and an empty filter list of that kind passes every
entry; the size filters Greater(0) and Less(100) together match a
50-byte file and reject a 0-byte and a 200-byte file. -/
theorem C1_and_semantics :
    (∀ opts ent, opts.size_filters = [] →
      Command.matches_size_filters opts ent = .ok true) ∧
    (∀ opts ent n, opts.size_filters ≠ [] → ent.size = .ok n →
      (Command.matches_size_filters opts ent = .ok true ↔
        ∀ f ∈ opts.size_filters, f.matches n = true)) ∧
    (∀ opts clock ent, opts.atime_filters = [] →
      Command.matches_atime_filters opts clock ent = .ok true) ∧
    (∀ opts clock ent t, opts.atime_filters ≠ [] → ent.atime = .ok t →
      (∀ f ∈ opts.atime_filters, (f.matches clock t).isOk = true) →
      (Command.matches_atime_filters opts clock ent = .ok true ↔
        ∀ f ∈ opts.atime_filters, f.matches clock t = .ok true)) ∧
    (∀ opts clock ent, opts.ctime_filters = [] →
      Command.matches_ctime_filters opts clock ent = .ok true) ∧
    (∀ opts clock ent t, opts.ctime_filters ≠ [] → ent.ctime = .ok t →
      (∀ f ∈ opts.ctime_filters, (f.matches clock t).isOk = true) →
      (Command.matches_ctime_filters opts clock ent = .ok true ↔
        ∀ f ∈ opts.ctime_filters, f.matches clock t = .ok true)) ∧
    (∀ opts clock ent, opts.creation_time_filters = [] →
      Command.matches_creation_time_filters opts clock ent = .ok true) ∧
    (∀ opts clock ent t, opts.creation_time_filters ≠ [] → ent.created_time = .ok t →
      (∀ f ∈ opts.creation_time_filters, (f.matches clock t).isOk = true) →
      (Command.matches_creation_time_filters opts clock ent = .ok true ↔
        ∀ f ∈ opts.creation_time_filters, f.matches clock t = .ok true)) ∧
    (∀ opts clock ent, opts.mtime_filters = [] →
      Command.matches_mtime_filters opts clock ent = .ok true) ∧
    (∀ opts clock ent t, opts.mtime_filters ≠ [] → ent.mtime = .ok t →
      (∀ f ∈ opts.mtime_filters, (f.matches clock t).isOk = true) →
      (Command.matches_mtime_filters opts clock ent = .ok true ↔
        ∀ f ∈ opts.mtime_filters, f.matches clock t = .ok true)) ∧
    (∀ opts ent, opts.size_filters = [SizeFilter.Greater 0, SizeFilter.Less 100] →
      (ent.size = .ok 50 → Command.matches_size_filters opts ent = .ok true) ∧
      (ent.size = .ok 0 → Command.matches_size_filters opts ent = .ok false) ∧
      (ent.size = .ok 200 → Command.matches_size_filters opts ent = .ok false)) := by
  refine ⟨?_, ?_, ?_, ?_, ?_, ?_, ?_, ?_, ?_, ?_, ?_⟩
  · intro opts ent h
    simp [Command.matches_size_filters, h]
  · intro opts ent n hne hs
    rw [Command.matches_size_filters, isEmpty_false_of_ne_nil hne]
    simp only [Bool.false_eq_true, if_false, hs, foldl_and_eq_all, Bool.true_and,
      SResult.ok.injEq, List.all_eq_true]
  · intro opts clock ent h
    simp [Command.matches_atime_filters, h]
  · intro opts clock ent t hne ha hok
    rw [Command.matches_atime_filters, isEmpty_false_of_ne_nil hne]
    simp only [Bool.false_eq_true, if_false, ha]
    exact tryFoldDuration_iff clock t _ hok
  · intro opts clock ent h
    simp [Command.matches_ctime_filters, h]
  · intro opts clock ent t hne ha hok
    rw [Command.matches_ctime_filters, isEmpty_false_of_ne_nil hne]
    simp only [Bool.false_eq_true, if_false, ha]
    exact tryFoldDuration_iff clock t _ hok
  · intro opts clock ent h
    simp [Command.matches_creation_time_filters, h]
  · intro opts clock ent t hne ha hok
    rw [Command.matches_creation_time_filters, isEmpty_false_of_ne_nil hne]
    simp only [Bool.false_eq_true, if_false, ha]
    exact tryFoldDuration_iff clock t _ hok
  · intro opts clock ent h
    simp [Command.matches_mtime_filters, h]
  · intro opts clock ent t hne ha hok
    rw [Command.matches_mtime_filters, isEmpty_false_of_ne_nil hne]
    simp only [Bool.false_eq_true, if_false, ha]
    exact tryFoldDuration_iff clock t _ hok
  · intro opts ent h
    refine ⟨?_, ?_, ?_⟩ <;> intro hs <;>
      simp [Command.matches_size_filters, h, hs, SizeFilter.matches]

/-- Witness for C1 at concrete inputs. -/
theorem C1_and_semantics_witness :
    Command.matches_size_filters emptyOptions brokenEntry = .ok true ∧
    Command.matches_size_filters optsSize (sizedEntry 50) = .ok true ∧
    Command.matches_atime_filters optsTimes clock0 (timedEntry 10000) = .ok true ∧
    Command.matches_ctime_filters optsTimes clock0 (timedEntry 10000) = .ok true ∧
    Command.matches_creation_time_filters optsTimes clock0 (timedEntry 10000) = .ok true ∧
    Command.matches_mtime_filters optsTimes clock0 (timedEntry 10000) = .ok true ∧
    Command.matches_size_filters optsSize (sizedEntry 0) = .ok false ∧
    Command.matches_size_filters optsSize (sizedEntry 200) = .ok false :=
  ⟨C1_and_semantics.1 emptyOptions brokenEntry rfl,
   (C1_and_semantics.2.1 optsSize (sizedEntry 50) 50 (by decide) rfl).mpr (by decide),
   (C1_and_semantics.2.2.2.1 optsTimes clock0 (timedEntry 10000) 10000
     (by decide) rfl (by decide)).mpr (by decide),
   (C1_and_semantics.2.2.2.2.2.1 optsTimes clock0 (timedEntry 10000) 10000
     (by decide) rfl (by decide)).mpr (by decide),
   (C1_and_semantics.2.2.2.2.2.2.2.1 optsTimes clock0 (timedEntry 10000) 10000
     (by decide) rfl (by decide)).mpr (by decide),
   (C1_and_semantics.2.2.2.2.2.2.2.2.2.1 optsTimes clock0 (timedEntry 10000) 10000
     (by decide) rfl (by decide)).mpr (by decide),
   (C1_and_semantics.2.2.2.2.2.2.2.2.2.2 optsSize (sizedEntry 0) rfl).2.1 rfl,
   (C1_and_semantics.2.2.2.2.2.2.2.2.2.2 optsSize (sizedEntry 200) rfl).2.2 rfl⟩

/-- Claim C10: a stage whose filter family is unconfigured passes every
entry without consulting the attribute it would test, so an entry whose
metadata fetches would all fail still passes every unconfigured stage
and, with nothing configured, the whole filter chain. -/
theorem C10_unconfigured_stage_no_fetch :
    (∀ opts ent, opts.size_filters = [] →
      Command.matches_size_filters opts ent = .ok true) ∧
    (∀ opts clock ent, opts.atime_filters = [] →
      Command.matches_atime_filters opts clock ent = .ok true) ∧
    (∀ opts clock ent, opts.ctime_filters = [] →
      Command.matches_ctime_filters opts clock ent = .ok true) ∧
    (∀ opts clock ent, opts.creation_time_filters = [] →
      Command.matches_creation_time_filters opts clock ent = .ok true) ∧
    (∀ opts clock ent, opts.mtime_filters = [] →
      Command.matches_mtime_filters opts clock ent = .ok true) ∧
    (∀ opts ent, opts.owner = none → Command.matches_owner opts ent = .ok true) ∧
    (∀ opts ent, opts.mode = none → Command.matches_mode opts ent = .ok true) ∧
    (∀ opts clock ent,
      opts.pattern = none → opts.owner = none → opts.mode = none →
      opts.type_filters = [] → opts.size_filters = [] →
      opts.atime_filters = [] → opts.ctime_filters = [] →
      opts.creation_time_filters = [] → opts.mtime_filters = [] →
      processEntry opts clock ent = .keep) := by
  refine ⟨?_, ?_, ?_, ?_, ?_, ?_, ?_, ?_⟩
  · intro opts ent h
    simp [Command.matches_size_filters, h]
  · intro opts clock ent h
    simp [Command.matches_atime_filters, h]
  · intro opts clock ent h
    simp [Command.matches_ctime_filters, h]
  · intro opts clock ent h
    simp [Command.matches_creation_time_filters, h]
  · intro opts clock ent h
    simp [Command.matches_mtime_filters, h]
  · intro opts ent h
    simp [Command.matches_owner, h]
  · intro opts ent h
    simp [Command.matches_mode, h]
  · intro opts clock ent h1 h2 h3 h4 h5 h6 h7 h8 h9
    simp [processEntry, stageThen, Command.matches_pattern, Command.matches_owner,
      Command.matches_mode, Command.matches_type_filters, Command.matches_size_filters,
      Command.matches_atime_filters, Command.matches_ctime_filters,
      Command.matches_creation_time_filters, Command.matches_mtime_filters,
      h1, h2, h3, h4, h5, h6, h7, h8, h9]

/-- Witness for C10: an entry whose every metadata fetch fails passes
each unconfigured stage and the whole unconfigured filter chain. -/
theorem C10_unconfigured_stage_no_fetch_witness :
    Command.matches_size_filters emptyOptions brokenEntry = .ok true ∧
    Command.matches_atime_filters emptyOptions none brokenEntry = .ok true ∧
    Command.matches_ctime_filters emptyOptions none brokenEntry = .ok true ∧
    Command.matches_creation_time_filters emptyOptions none brokenEntry = .ok true ∧
    Command.matches_mtime_filters emptyOptions none brokenEntry = .ok true ∧
    Command.matches_owner emptyOptions brokenEntry = .ok true ∧
    Command.matches_mode emptyOptions brokenEntry = .ok true ∧
    processEntry emptyOptions none brokenEntry = .keep :=
  ⟨C10_unconfigured_stage_no_fetch.1 emptyOptions brokenEntry rfl,
   C10_unconfigured_stage_no_fetch.2.1 emptyOptions none brokenEntry rfl,
   C10_unconfigured_stage_no_fetch.2.2.1 emptyOptions none brokenEntry rfl,
   C10_unconfigured_stage_no_fetch.2.2.2.1 emptyOptions none brokenEntry rfl,
   C10_unconfigured_stage_no_fetch.2.2.2.2.1 emptyOptions none brokenEntry rfl,
   C10_unconfigured_stage_no_fetch.2.2.2.2.2.1 emptyOptions brokenEntry rfl,
   C10_unconfigured_stage_no_fetch.2.2.2.2.2.2.1 emptyOptions brokenEntry rfl,
   C10_unconfigured_stage_no_fetch.2.2.2.2.2.2.2 emptyOptions none brokenEntry
     rfl rfl rfl rfl rfl rfl rfl rfl rfl⟩

/-- Counterexample to C6: with a readable clock at the epoch and a
one-day filter, `now - duration` underflows; the call neither returns
an error nor returns Ok(bool) — it panics (std Duration subtraction
panics on overflow), contradicting the claim that an underflow yields a
returned error and that the call always returns Ok(bool) or an error. -/
theorem C6_counterexample :
    ((DurationFilter.Greater (Duration.fromSecs 86400)).matches (some 0) 0).isErr = false ∧
    ((DurationFilter.Greater (Duration.fromSecs 86400)).matches (some 0) 0).isOk = false ∧
    (DurationFilter.Greater (Duration.fromSecs 86400)).matches (some 0) 0 = .panicked := by
  decide

/-- Claim C6 (amended): DurationFilter::matches returns an error iff
the system clock cannot be read; when the clock is readable but the
stored duration exceeds the time since the epoch, the subtraction
`now - duration` panics instead of returning; in every remaining case
the call returns Ok(bool). -/
theorem C6_matches_outcomes :
    ∀ (f : DurationFilter) (clock : Option Nat) (instant : Nat),
      (f.matches clock instant = .clockErr ↔ clock = none) ∧
      (f.matches clock instant = .panicked ↔ ∃ now, clock = some now ∧ now < f.dur) ∧
      (∀ now, clock = some now → f.dur ≤ now →
        f.matches clock instant = .ok (decide (Duration.fromSecs instant < now - f.dur)) ∨
        f.matches clock instant = .ok (decide (now - f.dur < Duration.fromSecs instant))) := by
  intro f clock instant
  refine ⟨?_, ?_, ?_⟩
  · cases clock with
    | none => cases f <;> simp [DurationFilter.matches]
    | some now =>
      cases f with
      | Less d =>
        by_cases hlt : now < d <;> simp [DurationFilter.matches, hlt]
      | Greater d =>
        by_cases hlt : now < d <;> simp [DurationFilter.matches, hlt]
  · cases clock with
    | none => cases f <;> simp [DurationFilter.matches]
    | some now =>
      cases f with
      | Less d =>
        by_cases hlt : now < d <;> simp [DurationFilter.matches, DurationFilter.dur, hlt]
      | Greater d =>
        by_cases hlt : now < d <;> simp [DurationFilter.matches, DurationFilter.dur, hlt]
  · intro now hc hd
    subst hc
    cases f with
    | Less d =>
      right
      simp only [DurationFilter.dur] at hd
      simp [DurationFilter.matches, Nat.not_lt.mpr hd, DurationFilter.dur]
    | Greater d =>
      left
      simp only [DurationFilter.dur] at hd
      simp [DurationFilter.matches, Nat.not_lt.mpr hd, DurationFilter.dur]

/-- Witness for C6 (amended) at concrete inputs. -/
theorem C6_matches_outcomes_witness :
    (DurationFilter.Less (Duration.fromSecs 1)).matches none 5 = .clockErr ∧
    (DurationFilter.Greater (Duration.fromSecs 86400)).matches (some 0) 7 = .panicked ∧
    ((DurationFilter.Greater (Duration.fromSecs 86400)).matches clock0 10000).isOk = true := by
  refine ⟨?_, ?_, ?_⟩
  · exact (C6_matches_outcomes (.Less (Duration.fromSecs 1)) none 5).1.mpr rfl
  · exact (C6_matches_outcomes (.Greater (Duration.fromSecs 86400)) (some 0) 7).2.1.mpr
      ⟨0, rfl, by decide⟩
  · rcases (C6_matches_outcomes (.Greater (Duration.fromSecs 86400)) clock0 10000).2.2
      (Duration.fromSecs 200000) rfl (by decide) with h | h <;> rw [h] <;> rfl

/-- Claim C7: a duration token with no sign parses to Greater, a minus
prefix to Less and a plus prefix to Greater; Greater(d) matches an
instant iff now - d is later than the instant and Less(d) iff now - d is
earlier; parsed from 1d the filter matches a file modified two days ago
and parsed from -1d it does not, with the inverse for a file modified
now. -/
theorem C7_duration_sign_and_matches :
    (∀ rest d, parseHumanDuration rest = .ok d →
      DurationFilter.from_str ('-' :: rest) = .ok (.Less d) ∧
      DurationFilter.from_str ('+' :: rest) = .ok (.Greater d)) ∧
    (∀ c cs d, c ≠ '-' → c ≠ '+' → parseHumanDuration (c :: cs) = .ok d →
      DurationFilter.from_str (c :: cs) = .ok (.Greater d)) ∧
    (∀ d now instant, d ≤ now →
      ((DurationFilter.Greater d).matches (some now) instant = .ok true ↔
        now - d > Duration.fromSecs instant) ∧
      ((DurationFilter.Less d).matches (some now) instant = .ok true ↔
        now - d < Duration.fromSecs instant)) ∧
    DurationFilter.from_str "1d".data = .ok (.Greater (Duration.fromSecs 86400)) ∧
    DurationFilter.from_str "-1d".data = .ok (.Less (Duration.fromSecs 86400)) ∧
    (∀ nowS, 172800 ≤ nowS →
      (DurationFilter.Greater (Duration.fromSecs 86400)).matches
        (some (Duration.fromSecs nowS)) (nowS - 172800) = .ok true ∧
      (DurationFilter.Less (Duration.fromSecs 86400)).matches
        (some (Duration.fromSecs nowS)) (nowS - 172800) = .ok false ∧
      (DurationFilter.Greater (Duration.fromSecs 86400)).matches
        (some (Duration.fromSecs nowS)) nowS = .ok false ∧
      (DurationFilter.Less (Duration.fromSecs 86400)).matches
        (some (Duration.fromSecs nowS)) nowS = .ok true) := by
  refine ⟨?_, ?_, ?_, by rfl, by rfl, ?_⟩
  · intro rest d h
    exact ⟨by simp [DurationFilter.from_str, h, Except.map],
           by simp [DurationFilter.from_str, h, Except.map]⟩
  · intro c cs d hm hp h
    unfold DurationFilter.from_str
    split
    · next rest heq =>
        injection heq with h1 h2
        exact absurd h1 hm
    · next rest heq =>
        injection heq with h1 h2
        exact absurd h1 hp
    · simp [h, Except.map]
  · intro d now instant h
    constructor <;>
      simp [DurationFilter.matches, Nat.not_lt.mpr h]
  · intro nowS h
    refine ⟨?_, ?_, ?_, ?_⟩ <;>
      · simp only [DurationFilter.matches, Duration.fromSecs, nanosPerSec]
        rw [if_neg (by omega)]
        simp only [DMatch.ok.injEq, decide_eq_true_eq, decide_eq_false_iff_not, Nat.not_lt,
          gt_iff_lt]
        omega

/-- Witness for C7 at concrete inputs. -/
theorem C7_duration_sign_and_matches_witness :
    DurationFilter.from_str ('-' :: "1d".data) = .ok (.Less (Duration.fromSecs 86400)) ∧
    DurationFilter.from_str ('1' :: "d".data) = .ok (.Greater (Duration.fromSecs 86400)) ∧
    (DurationFilter.Greater (Duration.fromSecs 86400)).matches clock0 10000 = .ok true ∧
    (DurationFilter.Greater (Duration.fromSecs 86400)).matches
      (some (Duration.fromSecs 200000)) (200000 - 172800) = .ok true := by
  refine ⟨?_, ?_, ?_, ?_⟩
  · exact (C7_duration_sign_and_matches.1 "1d".data (Duration.fromSecs 86400) (by rfl)).1
  · exact C7_duration_sign_and_matches.2.1 '1' "d".data (Duration.fromSecs 86400)
      (by decide) (by decide) (by rfl)
  · exact ((C7_duration_sign_and_matches.2.2.1 (Duration.fromSecs 86400)
      (Duration.fromSecs 200000) 10000 (by decide)).1).mpr (by decide)
  · exact ((C7_duration_sign_and_matches.2.2.2.2.2 200000 (by decide)).1)

/-- Claim C8: size-filter parsing maps a leading minus to Less, a
leading plus to Greater and no sign to Equal, the remainder going
through the human-size parser (decimal suffixes base-1000, binary
suffixes base-1024), and an invalid number or unit is a parse error;
1M is Equal(1000000), 1MiB is Equal(1048576), +1 is Greater(1). -/
theorem C8_size_parsing :
    (∀ rest n, parse_size rest = .ok n →
      SizeFilter.from_str ('-' :: rest) = .ok (.Less n) ∧
      SizeFilter.from_str ('+' :: rest) = .ok (.Greater n)) ∧
    (∀ c cs n, c ≠ '-' → c ≠ '+' → parse_size (c :: cs) = .ok n →
      SizeFilter.from_str (c :: cs) = .ok (.Equal n)) ∧
    (∀ c cs e, c ≠ '-' → c ≠ '+' → parse_size (c :: cs) = .error e →
      SizeFilter.from_str (c :: cs) = .error e) ∧
    SizeFilter.from_str "1M".data = .ok (.Equal 1000000) ∧
    SizeFilter.from_str "1MiB".data = .ok (.Equal 1048576) ∧
    SizeFilter.from_str "+1".data = .ok (.Greater 1) ∧
    SizeFilter.from_str "3jb".data = .error "invalid unit" ∧
    SizeFilter.from_str "abc".data = .error "invalid digit found in string" := by
  refine ⟨?_, ?_, ?_, by rfl, by rfl, by rfl, by rfl, by rfl⟩
  · intro rest n h
    exact ⟨by simp [SizeFilter.from_str, h, Except.map],
           by simp [SizeFilter.from_str, h, Except.map]⟩
  · intro c cs n hm hp h
    unfold SizeFilter.from_str
    split
    · next rest heq =>
        injection heq with h1 h2
        exact absurd h1 hm
    · next rest heq =>
        injection heq with h1 h2
        exact absurd h1 hp
    · simp [h, Except.map]
  · intro c cs e hm hp h
    unfold SizeFilter.from_str
    split
    · next rest heq =>
        injection heq with h1 h2
        exact absurd h1 hm
    · next rest heq =>
        injection heq with h1 h2
        exact absurd h1 hp
    · simp [h, Except.map]

/-- Witness for C8 at concrete inputs. -/
theorem C8_size_parsing_witness :
    SizeFilter.from_str ('-' :: "1".data) = .ok (.Less 1) ∧
    SizeFilter.from_str ('1' :: "M".data) = .ok (.Equal 1000000) ∧
    SizeFilter.from_str ('3' :: "jb".data) = .error "invalid unit" := by
  refine ⟨?_, ?_, ?_⟩
  · exact (C8_size_parsing.1 "1".data 1 (by rfl)).1
  · exact C8_size_parsing.2.1 '1' "M".data 1000000 (by decide) (by decide) (by rfl)
  · exact C8_size_parsing.2.2.1 '3' "jb".data "invalid unit" (by decide) (by decide) (by rfl)

/-! Run-level lemmas. -/

/-- Prepend already-produced output and diagnostic lines to a run
outcome. -/
def RunResult.addPre (p e : List String) : RunResult → RunResult
  | .completed ps es => .completed (p ++ ps) (e ++ es)
  | .terminated ps es u => .terminated (p ++ ps) (e ++ es) u
  | .panicked ps es => .panicked (p ++ ps) (e ++ es)

theorem addPre_nil (r : RunResult) : RunResult.addPre [] [] r = r := by
  cases r <;> simp [RunResult.addPre]

theorem addOut_addPre (x : String) (p e : List String) (r : RunResult) :
    RunResult.addOut x (RunResult.addPre p e r) = RunResult.addPre (x :: p) e r := by
  cases r <;> simp [RunResult.addOut, RunResult.addPre]

theorem addErr_addPre (ls p e : List String) (r : RunResult) :
    RunResult.addErr ls (RunResult.addPre p e r) = RunResult.addPre p (ls ++ e) r := by
  cases r <;> simp [RunResult.addErr, RunResult.addPre]

theorem run_nil (opts : Options) (clock : Option Nat) :
    Command.run opts clock [] = .completed [] [] := rfl

theorem run_cons_err (opts : Options) (clock : Option Nat) (m : String)
    (rest : List (Nat × Except String Entry)) :
    Command.run opts clock ((0, .error m) :: rest) =
      RunResult.addErr (Command.print_error opts m) (Command.run opts clock rest) := rfl

theorem run_cons_ok (opts : Options) (clock : Option Nat) (ent : Entry)
    (rest : List (Nat × Except String Entry)) :
    Command.run opts clock ((0, .ok ent) :: rest) =
      (match processEntry opts clock ent with
       | .keep => RunResult.addOut ent.path (Command.run opts clock rest)
       | .drop => Command.run opts clock rest
       | .errLine m => RunResult.addErr (Command.print_error opts m) (Command.run opts clock rest)
       | .panicked => .panicked [] []) := rfl

theorem run_cons_sig (opts : Options) (clock : Option Nat) {u : Nat}
    (item : Except String Entry) (rest : List (Nat × Except String Entry))
    (hu : u ≠ 0) :
    Command.run opts clock ((u, item) :: rest) = .terminated [] [] u := by
  rw [Command.run.eq_def]
  simp [hu]

theorem run_append_of_completed {opts : Options} {clock : Option Nat}
    {pre : List (Nat × Except String Entry)} {p e : List String}
    (h : Command.run opts clock pre = .completed p e)
    (suf : List (Nat × Except String Entry)) :
    Command.run opts clock (pre ++ suf) =
      RunResult.addPre p e (Command.run opts clock suf) := by
  induction pre generalizing p e with
  | nil =>
    rw [run_nil] at h
    cases h
    simp [addPre_nil]
  | cons hd rest ih =>
    obtain ⟨u, item⟩ := hd
    by_cases hu : u = 0
    · subst hu
      cases item with
      | error m =>
        rw [List.cons_append]
        rw [run_cons_err] at h ⊢
        cases hr : Command.run opts clock rest with
        | completed ps es =>
          rw [hr, RunResult.addErr] at h
          cases h
          rw [ih hr, addErr_addPre]
        | terminated ps es v => rw [hr, RunResult.addErr] at h; cases h
        | panicked ps es => rw [hr, RunResult.addErr] at h; cases h
      | ok ent =>
        rw [List.cons_append]
        rw [run_cons_ok] at h ⊢
        cases hpe : processEntry opts clock ent with
        | keep =>
          simp only [hpe] at h ⊢
          cases hr : Command.run opts clock rest with
          | completed ps es =>
            rw [hr, RunResult.addOut] at h
            cases h
            rw [ih hr, addOut_addPre]
          | terminated ps es v => rw [hr, RunResult.addOut] at h; cases h
          | panicked ps es => rw [hr, RunResult.addOut] at h; cases h
        | drop =>
          simp only [hpe] at h ⊢
          exact ih h
        | errLine m =>
          simp only [hpe] at h ⊢
          cases hr : Command.run opts clock rest with
          | completed ps es =>
            rw [hr, RunResult.addErr] at h
            cases h
            rw [ih hr, addErr_addPre]
          | terminated ps es v => rw [hr, RunResult.addErr] at h; cases h
          | panicked ps es => rw [hr, RunResult.addErr] at h; cases h
        | panicked =>
          simp only [hpe] at h
          cases h
    · rw [run_cons_sig opts clock item rest hu] at h
      cases h

/-- Options that only enable the show-errors switch. -/
def optsShow : Options := { emptyOptions with show_errors := true }

/-- Options that enable show-errors and configure an owner filter, so
that a failing uid fetch surfaces as a per-entry error. -/
def optsOwner : Options :=
  { emptyOptions with owner := some (.User 0), show_errors := true }

/-- Claim C3: once the shared cancellation flag is nonzero when an item
is pulled, the run aborts with Terminated carrying that value: the
output holds exactly the entries printed before that pull, none of the
flagged suffix is processed by any filter stage, and the caller observes
the distinct nonzero exit status u + 128. -/
theorem C3_cancellation :
    ∀ (opts : Options) (clock : Option Nat)
      (pre suf : List (Nat × Except String Entry)) (p e : List String) (u : Nat),
      Command.run opts clock pre = .completed p e →
      u ≠ 0 →
      suf ≠ [] →
      (∀ pair ∈ suf, pair.1 = u) →
      Command.run opts clock (pre ++ suf) = .terminated p e u ∧
      mainExitCode (Command.run opts clock (pre ++ suf)) = some (u + 128) ∧
      u + 128 ≠ 0 := by
  intro opts clock pre suf p e u h hu hne hall
  obtain ⟨hd, rest, rfl⟩ := List.exists_cons_of_ne_nil hne
  obtain ⟨u0, item⟩ := hd
  have hu0 : u0 = u := hall (u0, item) (List.mem_cons_self _ _)
  subst hu0
  have hterm : Command.run opts clock ((u0, item) :: rest) = .terminated [] [] u0 :=
    run_cons_sig opts clock item rest hu
  have hmain : Command.run opts clock (pre ++ (u0, item) :: rest) = .terminated p e u0 := by
    rw [run_append_of_completed h, hterm, RunResult.addPre]
    simp
  exact ⟨hmain, by rw [hmain]; rfl, by omega⟩

/-- Witness for C3: two entries are pulled with the flag at zero and
printed, then the flag holds 2; the run terminates with only the first
batch printed and exit status 130. -/
theorem C3_cancellation_witness :
    Command.run emptyOptions none
      ([(0, .ok (sampleEntry "./a" .file))] ++
        [(2, .ok (sampleEntry "./b" .file)), (2, .error "walk")]) =
      .terminated ["./a"] [] 2 ∧
    mainExitCode (Command.run emptyOptions none
      ([(0, .ok (sampleEntry "./a" .file))] ++
        [(2, .ok (sampleEntry "./b" .file)), (2, .error "walk")])) = some 130 ∧
    2 + 128 ≠ 0 :=
  C3_cancellation emptyOptions none
    [(0, .ok (sampleEntry "./a" .file))]
    [(2, .ok (sampleEntry "./b" .file)), (2, .error "walk")]
    ["./a"] [] 2 (by rfl) (by decide) (List.cons_ne_nil _ _) (by decide)

/-- Claim C4: a walker error and a per-entry stage error are
recoverable — each contributes one diagnostic line exactly when the
show-errors switch is on, and the run continues with the later items —
while a nonzero flag produces the Terminated outcome that aborts the
run at once, with no diagnostic line regardless of show-errors. -/
theorem C4_error_routing :
    (∀ (opts : Options) (clock : Option Nat) rest p e (msg : String),
      Command.run opts clock rest = .completed p e →
      Command.run opts clock ((0, .error msg) :: rest) =
        .completed p ((if opts.show_errors then ["findr: " ++ msg] else []) ++ e)) ∧
    (∀ (opts : Options) (clock : Option Nat) rest p e (ent : Entry) (m : String),
      processEntry opts clock ent = .errLine m →
      Command.run opts clock rest = .completed p e →
      Command.run opts clock ((0, .ok ent) :: rest) =
        .completed p ((if opts.show_errors then ["findr: " ++ m] else []) ++ e)) ∧
    (∀ (opts : Options) (clock : Option Nat) rest (u : Nat) item,
      u ≠ 0 →
      Command.run opts clock ((u, item) :: rest) = .terminated [] [] u) := by
  refine ⟨?_, ?_, ?_⟩
  · intro opts clock rest p e msg h
    rw [run_cons_err, h, RunResult.addErr, Command.print_error]
  · intro opts clock rest p e ent m hpe h
    rw [run_cons_ok]
    simp only [hpe]
    rw [h, RunResult.addErr, Command.print_error]
  · intro opts clock rest u item hu
    exact run_cons_sig opts clock item rest hu

/-- Witness for C4: with show-errors on, a walker error and a failing
uid fetch each produce one diagnostic line and the run continues; with
it off the same walker error is silent; a nonzero flag terminates
without any diagnostic line even with show-errors on. -/
theorem C4_error_routing_witness :
    Command.run optsShow none
      [(0, .error "walk"), (0, .ok (sampleEntry "./a" .file))] =
      .completed ["./a"] ["findr: walk"] ∧
    Command.run emptyOptions none
      [(0, .error "walk"), (0, .ok (sampleEntry "./a" .file))] =
      .completed ["./a"] [] ∧
    Command.run optsOwner none [(0, .ok brokenEntry)] =
      .completed [] ["findr: io"] ∧
    Command.run optsShow none [(15, .error "walk")] = .terminated [] [] 15 :=
  ⟨C4_error_routing.1 optsShow none
     [(0, .ok (sampleEntry "./a" .file))] ["./a"] [] "walk" (by rfl),
   C4_error_routing.1 emptyOptions none
     [(0, .ok (sampleEntry "./a" .file))] ["./a"] [] "walk" (by rfl),
   C4_error_routing.2.1 optsOwner none [] [] [] brokenEntry "io" (by rfl) (by rfl),
   C4_error_routing.2.2 optsShow none [] 15 (.error "walk") (by decide)⟩

/-! Owner parsing. -/

theorem splitOnce_eq_none {c : Char} {s : List Char} (h : c ∉ s) :
    splitOnce c s = none := by
  induction s with
  | nil => rfl
  | cons x xs ih =>
    have hx : ¬(x = c) := fun hxc => h (hxc ▸ List.mem_cons_self x xs)
    rw [splitOnce, if_neg hx, ih (fun hm => h (List.mem_cons_of_mem x hm))]
    rfl

theorem splitOnce_append {c : Char} {pre suf : List Char} (h : c ∉ pre) :
    splitOnce c (pre ++ c :: suf) = some (pre, suf) := by
  induction pre with
  | nil => simp [splitOnce]
  | cons x xs ih =>
    have hx : ¬(x = c) := fun hxc => h (hxc ▸ List.mem_cons_self x xs)
    rw [List.cons_append, splitOnce, if_neg hx,
      ih (fun hm => h (List.mem_cons_of_mem x hm))]
    rfl

/-- A database where every id lookup fails, while the name lookup knows
a user literally named 4294967296. -/
def dbNum : UserDb :=
  { userByUid := fun _ => none,
    userByName := fun s => if s = "4294967296".data then some 7 else none,
    groupByGid := fun _ => none,
    groupByName := fun _ => none }

/-- A database with the user alice (uid 1000) and the group staff
(gid 50), both reachable by name and by id. -/
def sampleDb : UserDb :=
  { userByUid := fun u => if u = 1000 then some 1000 else none,
    userByName := fun s => if s = "alice".data then some 1000 else none,
    groupByGid := fun g => if g = 50 then some 50 else none,
    groupByName := fun s => if s = "staff".data then some 50 else none }

/-- Counterexample to C9: the token 4294967296 is purely numeric, yet
because it exceeds the u32 range the code falls back to a name lookup
and resolves it against the name database (every id lookup in dbNum
fails), contradicting the claim that name fallback happens only for
tokens that are not purely numeric. -/
theorem C9_counterexample :
    "4294967296".data.all Char.isDigit = true ∧
    parseU32 "4294967296".data = none ∧
    parse_user dbNum "4294967296".data = .ok 7 :=
  ⟨by decide, by rfl, by rfl⟩

/-- Claim C9 (amended): the owner token splits on the first colon into
User / Group / UserGroup exactly as claimed and an unknown name or id
fails with the invalid-user/invalid-group error; a token is tried as an
id precisely when it parses as a 32-bit unsigned integer (optional plus
sign, digits, value below 2^32), with no name fallback after a failed
id lookup, and any other token — including purely numeric tokens
outside the u32 range — goes to name lookup. -/
theorem C9_owner_parsing :
    (∀ (db : UserDb) (s : List Char), ':' ∉ s →
      OwnerFilter.from_str db s = (parse_user db s).map .User) ∧
    (∀ (db : UserDb) (user : List Char), ':' ∉ user →
      OwnerFilter.from_str db (user ++ [':']) = (parse_user db user).map .User) ∧
    (∀ (db : UserDb) (group : List Char), ':' ∉ group → group ≠ [] →
      OwnerFilter.from_str db (':' :: group) = (parse_group db group).map .Group) ∧
    (∀ (db : UserDb) (user group : List Char) (u g : Nat),
      ':' ∉ user → user ≠ [] → ':' ∉ group → group ≠ [] →
      parse_user db user = .ok u → parse_group db group = .ok g →
      OwnerFilter.from_str db (user ++ ':' :: group) = .ok (.UserGroup u g)) ∧
    (∀ (db : UserDb) (s : List Char) (v : Nat), parseU32 s = some v →
      parse_user db s = ((db.userByUid v).elim (.error (.invalidUser s)) .ok) ∧
      parse_group db s = ((db.groupByGid v).elim (.error (.invalidGroup s)) .ok)) ∧
    (∀ (db : UserDb) (s : List Char), parseU32 s = none →
      parse_user db s = ((db.userByName s).elim (.error (.invalidUser s)) .ok) ∧
      parse_group db s = ((db.groupByName s).elim (.error (.invalidGroup s)) .ok)) ∧
    (∀ (db : UserDb) (s : List Char), ':' ∉ s → parseU32 s = none →
      db.userByName s = none →
      OwnerFilter.from_str db s = .error (.invalidUser s)) := by
  refine ⟨?_, ?_, ?_, ?_, ?_, ?_, ?_⟩
  · intro db s h
    rw [OwnerFilter.from_str, splitOnce_eq_none h]
  · intro db user h
    rw [OwnerFilter.from_str, show user ++ [':'] = user ++ ':' :: [] from rfl,
      splitOnce_append h]
    cases user <;> rfl
  · intro db group h hne
    obtain ⟨g0, gs, rfl⟩ := List.exists_cons_of_ne_nil hne
    rw [OwnerFilter.from_str, show (':' :: g0 :: gs : List Char) = [] ++ ':' :: g0 :: gs
      from rfl, splitOnce_append (by simp)]
  · intro db user group u g hcu hu hcg hg hpu hpg
    obtain ⟨u0, us, rfl⟩ := List.exists_cons_of_ne_nil hu
    obtain ⟨g0, gs, rfl⟩ := List.exists_cons_of_ne_nil hg
    rw [OwnerFilter.from_str, splitOnce_append hcu]
    simp only [hpu, hpg]
    rfl
  · intro db s v h
    constructor
    · cases hdb : db.userByUid v <;> simp [parse_user, h, hdb, Option.elim]
    · cases hdb : db.groupByGid v <;> simp [parse_group, h, hdb, Option.elim]
  · intro db s h
    constructor
    · cases hdb : db.userByName s <;> simp [parse_user, h, hdb, Option.elim]
    · cases hdb : db.groupByName s <;> simp [parse_group, h, hdb, Option.elim]
  · intro db s hc hnum hname
    rw [OwnerFilter.from_str, splitOnce_eq_none hc]
    simp [parse_user, hnum, hname, Except.map]

/-- Witness for C9 (amended) at concrete inputs over sampleDb. -/
theorem C9_owner_parsing_witness :
    OwnerFilter.from_str sampleDb "alice".data = .ok (.User 1000) ∧
    OwnerFilter.from_str sampleDb ("alice".data ++ [':']) = .ok (.User 1000) ∧
    OwnerFilter.from_str sampleDb (':' :: "staff".data) = .ok (.Group 50) ∧
    OwnerFilter.from_str sampleDb ("alice".data ++ ':' :: "staff".data) =
      .ok (.UserGroup 1000 50) ∧
    parse_user sampleDb "1000".data = .ok 1000 ∧
    parse_user sampleDb "alice".data = .ok 1000 ∧
    OwnerFilter.from_str sampleDb "dne".data = .error (.invalidUser "dne".data) := by
  refine ⟨?_, ?_, ?_, ?_, ?_, ?_, ?_⟩
  · exact (C9_owner_parsing.1 sampleDb "alice".data (by decide)).trans (by rfl)
  · exact (C9_owner_parsing.2.1 sampleDb "alice".data (by decide)).trans (by rfl)
  · exact (C9_owner_parsing.2.2.1 sampleDb "staff".data (by decide) (by decide)).trans
      (by rfl)
  · exact C9_owner_parsing.2.2.2.1 sampleDb "alice".data "staff".data 1000 50
      (by decide) (by decide) (by decide) (by decide) (by rfl) (by rfl)
  · exact ((C9_owner_parsing.2.2.2.2.1 sampleDb "1000".data 1000 (by rfl)).1).trans
      (by rfl)
  · exact ((C9_owner_parsing.2.2.2.2.2.1 sampleDb "alice".data (by rfl)).1).trans
      (by rfl)
  · exact C9_owner_parsing.2.2.2.2.2.2 sampleDb "dne".data (by decide) (by rfl) (by rfl)

end Findr
